import Mathlib

/-!
Shallow embedding of `Bio/PDB/Interface.py` (the Interface entity of this
repository) together with proofs about its behaviour.

Python dictionaries are modelled as insertion-ordered association lists
(`AList`), matching assignment semantics: updating an existing key keeps its
position, a new key is appended.  Python exceptions are modelled with
`Except PyError`.  Python 2 `float` arithmetic on the small integer values
appearing here is exact, so floats are modelled as `Rat`; the Python 2 integer
division `common/total` is modelled as `Nat` division, which is what the
CPython floor division computes on non-negative operands.
-/

/-- A chain identifier (Python `chain.id`, a string). -/
abbrev ChainId := String

/-- A residue identifier: the Python tuple `(hetflag, seqnum, icode)`. -/
structure ResId where
  het : String
  seqnum : Int
  icode : String
deriving DecidableEq, Repr

/-- Coordinates of an atom, used only as an opaque payload handed to the
external superposition service. -/
abbrev Pt := Rat × Rat × Rat

/-- A residue as used by `Interface.py`: its parent chain id (`r.parent.id`),
its full id tuple (`r.get_id()` / `r.id`), its three-letter name
(`r.resname`) and its atom dictionary (used only for the `CA` lookup
`ref_res['CA']` in `_get_atoms_coords`). -/
structure Residue where
  chain : ChainId
  id : ResId
  resname : String
  atoms : List (String × Pt) := []
deriving DecidableEq, Repr

/-- The Python exceptions that the embedded code can raise. -/
inductive PyError where
  | keyError
  | indexError
  | nameError
  | valueError
  | zeroDivisionError
deriving DecidableEq, Repr

instance {ε α : Type} [DecidableEq ε] [DecidableEq α] : DecidableEq (Except ε α) :=
  fun a b =>
    match a, b with
    | .ok x, .ok y =>
        if h : x = y then .isTrue (by rw [h])
        else .isFalse (by intro hh; cases hh; exact h rfl)
    | .error x, .error y =>
        if h : x = y then .isTrue (by rw [h])
        else .isFalse (by intro hh; cases hh; exact h rfl)
    | .ok _, .error _ => .isFalse (by intro h; cases h)
    | .error _, .ok _ => .isFalse (by intro h; cases h)

/-- `d[k]` on a Python dictionary modelled as an association list. -/
def alookup {α β : Type} [DecidableEq α] : List (α × β) → α → Option β
  | [], _ => none
  | (k, v) :: rest, k0 => if k = k0 then some v else alookup rest k0

/-- `d[k] = v` on a Python dictionary modelled as an association list:
an existing key is updated in place, a new key is appended. -/
def aset {α β : Type} [DecidableEq α] : List (α × β) → α → β → List (α × β)
  | [], k0, v0 => [(k0, v0)]
  | (k, v) :: rest, k0, v0 =>
      if k = k0 then (k, v0) :: rest else (k, v) :: aset rest k0 v0

/-- Lift a Python lookup that raises `KeyError` on a missing key. -/
def ofKey {α : Type} : Option α → Except PyError α
  | some a => .ok a
  | none => .error .keyError

/-- `l[i]` on a Python list: `IndexError` when out of range. -/
def pyIndex {α : Type} (l : List α) (i : Nat) : Except PyError α :=
  match l[i]? with
  | some a => .ok a
  | none => .error .indexError

/-- The contact map `self.neighbors`: chain id to (residue to partner list). -/
abbrev NbMap := List (ChainId × List (Residue × List Residue))

/-- The `Interface` entity (`Interface.__init__`, lines 28-34): children and
the chain-keyed child dictionary maintained by `add`, the raw contact-pair
list `uniq_pairs`, and the chains of the parent model read by
`calculate_BSA` through `self.model` (the model is attached by the external
interface-construction step; only its chain ids are relevant here). -/
structure Interface where
  id : String := ""
  child_list : List Residue := []
  child_dict : List (ChainId × List Residue) := []
  uniq_pairs : List (Residue × Residue) := []
  model_chains : List ChainId := []
deriving DecidableEq, Repr

/-- Modelled from the spec: `Entity.has_id` lives in `Bio/PDB/Entity.py`,
outside the given sources.  Per the `add` docstring and the spec data model
(member residues keyed by their identifiers), it tests whether an entity with
the given id is already a child of this Interface. -/
def Interface.has_id (I : Interface) (i : ResId) : Bool :=
  I.child_list.any (fun r => r.id = i)

/-- `Interface.add` (lines 44-53): append the entity to `child_list` and to
the per-chain list in `child_dict` unless its id is already present. -/
def Interface.add (I : Interface) (e : Residue) : Interface :=
  if I.has_id e.id then I
  else
    { I with
      child_list := I.child_list ++ [e]
      child_dict :=
        match alookup I.child_dict e.chain with
        | none => I.child_dict ++ [(e.chain, [e])]
        | some l => aset I.child_dict e.chain (l ++ [e]) }

/-- `Interface.get_chains` (lines 55-58): the keys of `child_dict`. -/
def Interface.get_chains (I : Interface) : List ChainId :=
  I.child_dict.map Prod.fst

/-- Lines 62-64 of `set_neighbors`: `self.neighbors[c] = {}` for each chain. -/
def initNeighbors (I : Interface) : NbMap :=
  I.get_chains.foldl (fun acc c => aset acc c []) []

/-- One iteration of the `for resA, resB in self.uniq_pairs` loop of
`set_neighbors` (lines 66-79).  Reading `self.neighbors[res.parent.id]`
raises `KeyError` when the chain is not initialized.  Note the faithful
rendering of line 77: on the first encounter of `resB` under its own chain
the code appends `resB` itself, not its partner `resA`. -/
def setNeighborsStep (nb : NbMap) (p : Residue × Residue) : Except PyError NbMap := do
  let resA := p.1
  let resB := p.2
  let chA ← ofKey (alookup nb resA.chain)
  let nb1 :=
    match alookup chA resA with
    | none => aset nb resA.chain (aset chA resA [resB])
    | some l => if resB ∈ l then nb else aset nb resA.chain (aset chA resA (l ++ [resB]))
  let chB ← ofKey (alookup nb1 resB.chain)
  let nb2 :=
    match alookup chB resB with
    | none => aset nb1 resB.chain (aset chB resB [resB])
    | some l => if resA ∈ l then nb1 else aset nb1 resB.chain (aset chB resB (l ++ [resA]))
  return nb2

/-- `Interface.set_neighbors` (lines 60-81), on a fresh instance (the
`neighbors` attribute starts out empty; the method recomputes it from
`uniq_pairs` and returns it). -/
def set_neighbors (I : Interface) : Except PyError NbMap :=
  I.uniq_pairs.foldlM setNeighborsStep (initNeighbors I)

/-- Whether residue `p` appears in the partner list of residue `r` under
chain key `c` of a computed contact map. -/
def inPartnerList (nb : NbMap) (c : ChainId) (r p : Residue) : Bool :=
  match alookup nb c with
  | none => false
  | some m =>
    match alookup m r with
    | none => false
    | some l => l.contains p

/-- Python `list.sort()` on integer lists (used on partner sequence numbers
in `_get_neighbors_id`, line 198). -/
def pySort (l : List Int) : List Int :=
  l.insertionSort (fun a b => a ≤ b)

/-- The body of `_get_neighbors_id` (lines 191-198) for one chain: from the
chain entry of the contact map, a dictionary keyed by `key.id` whose value is
the sorted list of `res.id[1]` over the partner list. -/
def neighborsId (chmap : List (Residue × List Residue)) : List (ResId × List Int) :=
  chmap.foldl
    (fun acc kv => aset acc kv.1.id (pySort (kv.2.map (fun r => r.id.seqnum)))) []

/-- `Interface._get_neighbors_id` (lines 191-198): `self.neighbors[chain]`
raises `KeyError` when the chain is absent. -/
def get_neighbors_id (nb : NbMap) (c : ChainId) : Except PyError (List (ResId × List Int)) :=
  match alookup nb c with
  | none => .error .keyError
  | some chmap => .ok (neighborsId chmap)

/-- Lines 210-212 of `fcc`: `for c in self.get_chains(): chain = c; break`.
With no chains the loop body never runs and the later use of `chain` raises
`NameError`. -/
def firstChain (I : Interface) : Except PyError ChainId :=
  match I.get_chains with
  | [] => .error .nameError
  | c :: _ => .ok c

/-- `len(set(a).intersection(set(b)))` (line 223): the number of distinct
values occurring in both lists. -/
def pyIntersectCard (a b : List Int) : Nat :=
  (a.dedup.filter (fun x => decide (x ∈ b))).length

/-- Line 217 of `fcc`: `total = sum(len(l) for l in self.neighbors_id.itervalues())`. -/
def fccTotal (nid : List (ResId × List Int)) : Nat :=
  (nid.map (fun kv => kv.2.length)).sum

/-- The contribution of one reference residue key to `common`
(lines 221-223): the intersection cardinality when the key is also present in
the mobile dictionary, `0` otherwise (the `if` guard skips it). -/
def commonTerm (nidM : List (ResId × List Int)) (kv : ResId × List Int) : Nat :=
  match alookup nidM kv.1 with
  | none => 0
  | some l2 => pyIntersectCard kv.2 l2

/-- Lines 220-223 of `fcc`: the accumulated `common` count. -/
def fccCommon (nidS nidM : List (ResId × List Int)) : Nat :=
  nidS.foldl (fun acc kv => acc + commonTerm nidM kv) 0

/-- `Interface.fcc` (lines 200-226) on fresh interfaces (their `neighbors`
attribute is empty, so line 204-207 invokes `set_neighbors` on both).  Line
224 is `fcc = float(common/total)`: `common` and `total` are non-negative
Python 2 ints, so `common/total` is floor division (`Nat` division here,
raising `ZeroDivisionError` when `total` is zero) and only the truncated
quotient is converted to float. -/
def fcc (self mobile : Interface) : Except PyError Rat := do
  let nbS ← set_neighbors self
  let nbM ← set_neighbors mobile
  let chain ← firstChain self
  let nidS ← get_neighbors_id nbS chain
  let nidM ← get_neighbors_id nbM chain
  let total := fccTotal nidS
  let common := fccCommon nidS nidM
  if total = 0 then .error .zeroDivisionError
  else .ok ((common / total : Nat) : Rat)

/-- The static amino-acid property tables consumed by
`calculate_percentage` and `rmsd` (external collaborators: `IUPACData` and
`to_one_letter_code`; missing entries raise `KeyError`). -/
structure PropertyTables where
  to_one_letter_code : String → Option Char
  protein_polarity_polar : List Char
  protein_pka_side_chain : Char → Option Rat

/-- The classes distinguished by `calculate_percentage`. -/
inductive ResidueClass where
  | polar
  | apolar
  | charged
deriving DecidableEq, Repr

/-- Lines 92-99 of `calculate_percentage` for one residue: the one-letter
code lookup, the polarity membership test, and the Python truthiness test
`if charged_list[res]` on the pKa value (a float, falsy exactly when zero). -/
def classify_residue (T : PropertyTables) (resname : String) : Except PyError ResidueClass := do
  let res ← ofKey (T.to_one_letter_code resname)
  if res ∈ T.protein_polarity_polar then
    let pka ← ofKey (T.protein_pka_side_chain res)
    if pka = 0 then return .polar else return .charged
  else
    return .apolar

/-- One iteration of the counting loop of `calculate_percentage`
(lines 91-99): bump the `(polar, apolar, charged)` accumulator according to
the classification of the residue. -/
def count_step (T : PropertyTables) (acc : Nat × Nat × Nat) (r : Residue) :
    Except PyError (Nat × Nat × Nat) := do
  match (← classify_residue T r.resname) with
  | .polar => return (acc.1 + 1, acc.2.1, acc.2.2)
  | .apolar => return (acc.1, acc.2.1 + 1, acc.2.2)
  | .charged => return (acc.1, acc.2.1, acc.2.2 + 1)

/-- The counting loop of `calculate_percentage` (lines 86-99). -/
def count_classes (T : PropertyTables) (rs : List Residue) :
    Except PyError (Nat × Nat × Nat) :=
  rs.foldlM (count_step T) (0, 0, 0)

/-- `Interface.calculate_percentage` (lines 83-105): iteration over `self`
is iteration over `child_list` and `len(self)` is its length (Entity
container conventions); the three divisions are true float divisions, raising
`ZeroDivisionError` on an empty interface. -/
def calculate_percentage (T : PropertyTables) (I : Interface) : Except PyError (List Rat) := do
  let counts ← count_classes T I.child_list
  let n := I.child_list.length
  if n = 0 then .error .zeroDivisionError
  else
    .ok [(counts.1 : Rat) / n, (counts.2.1 : Rat) / n, (counts.2.2 : Rat) / n]

/-- An atom as seen by `_get_atomic_SASA`: element symbol, the hetero flag of
its parent residue (`at.get_parent().id[0]`), and the optional
`at.xtra['EXP_NACCESS']` annotation written by the external SASA service. -/
structure PyAtom where
  element : String
  parent_het : String
  exp_naccess : Option Rat := none
deriving DecidableEq, Repr

/-- `Interface._get_atomic_SASA` (lines 107-119).  Line 117 builds `sasa_l`
(heavy atoms of standard residues; a missing annotation raises `KeyError`
inside the comprehension), but line 118 evaluates `sum(sas_l)` where `sas_l`
is an unbound name, so the function always raises `NameError` once the
comprehension has finished. -/
def get_atomic_SASA (atoms : List PyAtom) : Except PyError Rat := do
  let _sasa_l ← (atoms.filter
      (fun a => a.parent_het = " " && a.element ≠ "H")).mapM
      (fun a => ofKey a.exp_naccess)
  .error .nameError

/-- Lines 125 and 132-133 of `calculate_BSA`: the chains fed to the two
single-chain structures are `chains[0]` and `chains[1]` of
`list(self.get_chains())`, with no cardinality check of any kind. -/
def bsa_selected_chains (I : Interface) : Except PyError (ChainId × ChainId) := do
  let chains := I.get_chains
  let c0 ← pyIndex chains 0
  let c1 ← pyIndex chains 1
  return (c0, c1)

/-- `Interface.calculate_BSA` (lines 121-152).  After selecting the first two
chains, `self.model[chains[i]]` looks the chains up in the parent model
(`KeyError` when absent) and the `NACCESS_atomic` external calls annotate the
atoms; none of their results are ever read, because line 142 resolves the
bare name `_get_atomic_SASA`, which is a class attribute and not a
module-level name, raising `NameError` before any SASA value is summed. -/
def calculate_BSA (I : Interface) : Except PyError (List Rat) := do
  let sel ← bsa_selected_chains I
  if sel.1 ∈ I.model_chains then
    if sel.2 ∈ I.model_chains then
      .error .nameError
    else .error .keyError
  else .error .keyError

/-- Python `sorted` order on the one-letter code lists in `rmsd`
(lines 172-173). -/
def pySortChars (l : List Char) : List Char :=
  l.insertionSort (fun a b => a ≤ b)

/-- The one-letter sequence `[to_one_letter_code[r.resname] for r in
child_list]` (lines 170-171); an unknown residue name raises `KeyError`. -/
def one_letter_seq (T : PropertyTables) (rs : List Residue) : Except PyError (List Char) :=
  rs.mapM (fun r => ofKey (T.to_one_letter_code r.resname))

/-- One iteration of the `for ref_res, alt_res in zip(...)` loop of
`_get_atoms_coords` (lines 160-162): append the `CA` atom of each side
(`KeyError` when a residue has no `CA` atom). -/
def coord_step (acc : List Pt × List Pt) (rp : Residue × Residue) :
    Except PyError (List Pt × List Pt) := do
  let ca_r ← ofKey (alookup rp.1.atoms "CA")
  let ca_a ← ofKey (alookup rp.2.atoms "CA")
  return (acc.1 ++ [ca_r], acc.2 ++ [ca_a])

/-- `Interface._get_atoms_coords` (lines 154-164): zip the two residue lists
positionally and take the `CA` atom of each side. -/
def get_atoms_coords (self mobile : Interface) : Except PyError (List Pt × List Pt) :=
  (self.child_list.zip mobile.child_list).foldlM coord_step ([], [])

/-- Lines 179-189 of `rmsd`: extract the paired alpha-carbon coordinates and
hand them to the external rigid-superposition service `sup` (the
`Superimposer`), returning its RMSD. -/
def rmsd_superpose (sup : List Pt → List Pt → Except PyError Rat)
    (self mobile : Interface) : Except PyError Rat := do
  let coords ← get_atoms_coords self mobile
  sup coords.1 coords.2

/-- `Interface.rmsd` (lines 166-189).  When the `mob_ref` override is not
asserted, the sorted one-letter sequences are compared and a mismatch raises
`ValueError` (line 177); otherwise the superposition stage runs. -/
def rmsd (T : PropertyTables) (sup : List Pt → List Pt → Except PyError Rat)
    (self mobile : Interface) (mob_ref : Bool) : Except PyError Rat := do
  if mob_ref = false then
    let ref_seq ← one_letter_seq T self.child_list
    let alt_seq ← one_letter_seq T mobile.child_list
    if pySortChars ref_seq ≠ pySortChars alt_seq then .error .valueError
    else rmsd_superpose sup self mobile
  else
    rmsd_superpose sup self mobile

-- Concrete residues used by the worked examples (spec section 8).

def rA10 : Residue := { chain := "A", id := ⟨" ", 10, " "⟩, resname := "ALA" }
def rA11 : Residue := { chain := "A", id := ⟨" ", 11, " "⟩, resname := "GLY" }
def rB20 : Residue := { chain := "B", id := ⟨" ", 20, " "⟩, resname := "LEU" }
def rB21 : Residue := { chain := "B", id := ⟨" ", 21, " "⟩, resname := "SER" }

/-- Interface with the single raw pair `(A10, B20)`. -/
def I1 : Interface :=
  { child_list := [rA10, rB20]
    child_dict := [("A", [rA10]), ("B", [rB20])]
    uniq_pairs := [(rA10, rB20)] }

/-- The reference interface of the worked example in the spec: raw pairs
`[(A10,B20), (A10,B21), (A11,B20)]`. -/
def refEx : Interface :=
  { child_list := [rA10, rA11, rB20, rB21]
    child_dict := [("A", [rA10, rA11]), ("B", [rB20, rB21])]
    uniq_pairs := [(rA10, rB20), (rA10, rB21), (rA11, rB20)] }

/-- The mobile interface of the worked example: the single raw pair
`(A10, B20)`. -/
def mobEx : Interface :=
  { child_list := [rA10, rB20]
    child_dict := [("A", [rA10]), ("B", [rB20])]
    uniq_pairs := [(rA10, rB20)] }

/-- An interface with chains but no contact pairs at all. -/
def refEmpty : Interface :=
  { child_list := [rA10, rB20]
    child_dict := [("A", [rA10]), ("B", [rB20])]
    uniq_pairs := [] }

/-- A three-chain interface (residue C30 on a third chain). -/
def rC30 : Residue := { chain := "C", id := ⟨" ", 30, " "⟩, resname := "VAL" }

def I3chains : Interface :=
  { child_list := [rA10, rB20, rC30]
    child_dict := [("A", [rA10]), ("B", [rB20]), ("C", [rC30])]
    uniq_pairs := [(rA10, rB20)]
    model_chains := ["A", "B", "C"] }

/-- A two-chain interface whose parent model has both chains. -/
def I2chains : Interface :=
  { child_list := [rA10, rB20]
    child_dict := [("A", [rA10]), ("B", [rB20])]
    uniq_pairs := [(rA10, rB20)]
    model_chains := ["A", "B"] }

/-- A chain-B residue with the same sequence number 20 as `rB20` but a
different insertion code. -/
def rB20A : Residue := { chain := "B", id := ⟨" ", 20, "A"⟩, resname := "THR" }

/-- Interface whose chain-A residue contacts two chain-B residues sharing
sequence number 20 (distinguished only by insertion code). -/
def I6 : Interface :=
  { child_list := [rA10, rB20, rB20A]
    child_dict := [("A", [rA10]), ("B", [rB20, rB20A])]
    uniq_pairs := [(rA10, rB20), (rA10, rB20A)] }

/-- Interfaces for the pair-order experiment: same data, reversed raw pairs. -/
def I9a : Interface :=
  { child_list := [rA10, rA11, rB20]
    child_dict := [("A", [rA10, rA11]), ("B", [rB20])]
    uniq_pairs := [(rA10, rB20), (rA11, rB20)] }

def I9b : Interface :=
  { child_list := [rA10, rA11, rB20]
    child_dict := [("A", [rA10, rA11]), ("B", [rB20])]
    uniq_pairs := [(rA11, rB20), (rA10, rB20)] }

/-! ### Helper lemmas about the dictionary model -/

/-- The keys of a modelled dictionary. -/
def akeys {α β : Type} (l : List (α × β)) : List α :=
  l.map Prod.fst

theorem mem_akeys_aset {α β : Type} [DecidableEq α] {x k : α} {v : β} :
    ∀ {l : List (α × β)}, x ∈ akeys (aset l k v) → x ∈ akeys l ∨ x = k := by
  intro l
  induction l with
  | nil =>
      intro hx
      right
      simpa [aset, akeys] using hx
  | cons hd tl ih =>
      intro hx
      by_cases h : hd.1 = k
      · left
        have he : aset (hd :: tl) k v = (hd.1, v) :: tl := by
          cases hd
          simp only [aset]
          rw [if_pos h]
        rw [he] at hx
        simpa [akeys] using hx
      · have he : aset (hd :: tl) k v = hd :: aset tl k v := by
          cases hd
          simp only [aset]
          rw [if_neg h]
        rw [he] at hx
        simp only [akeys, List.map_cons, List.mem_cons] at hx ⊢
        rcases hx with hx | hx
        · exact Or.inl (Or.inl hx)
        · rcases ih hx with h2 | h2
          · exact Or.inl (Or.inr h2)
          · exact Or.inr h2

theorem nodup_akeys_aset {α β : Type} [DecidableEq α] {k : α} {v : β} :
    ∀ {l : List (α × β)}, (akeys l).Nodup → (akeys (aset l k v)).Nodup := by
  intro l
  induction l with
  | nil => simp [aset, akeys]
  | cons hd tl ih =>
      intro hnd
      simp only [akeys, List.map_cons, List.nodup_cons] at hnd
      by_cases h : hd.1 = k
      · simpa [aset, h, akeys, List.nodup_cons] using hnd
      · simp only [aset]
        rw [if_neg h]
        simp only [akeys, List.map_cons, List.nodup_cons]
        refine ⟨?_, ih hnd.2⟩
        intro hmem
        rcases mem_akeys_aset hmem with h2 | h2
        · exact hnd.1 h2
        · exact h h2

theorem alookup_of_mem {α β : Type} [DecidableEq α] {k : α} {v : β} :
    ∀ {l : List (α × β)}, (akeys l).Nodup → (k, v) ∈ l → alookup l k = some v := by
  intro l
  induction l with
  | nil => simp
  | cons hd tl ih =>
      intro hnd hmem
      simp only [akeys, List.map_cons, List.nodup_cons] at hnd
      rcases List.mem_cons.mp hmem with hmem | hmem
      · subst hmem
        simp [alookup]
      · have hk : hd.1 ≠ k := by
          intro hk
          apply hnd.1
          subst hk
          exact List.mem_map.mpr ⟨(hd.1, v), hmem, rfl⟩
        simp only [alookup]
        rw [if_neg hk]
        exact ih hnd.2 hmem

theorem values_aset {α β : Type} [DecidableEq α] (P : β → Prop) {k : α} {v : β} :
    ∀ {l : List (α × β)}, (∀ kv ∈ l, P kv.2) → P v →
      ∀ kv ∈ aset l k v, P kv.2 := by
  intro l
  induction l with
  | nil =>
      intro _ hv kv hkv
      simp [aset] at hkv
      subst hkv
      exact hv
  | cons hd tl ih =>
      intro hl hv kv hkv
      by_cases h : hd.1 = k
      · simp only [aset] at hkv
        rw [if_pos h] at hkv
        rcases List.mem_cons.mp hkv with hkv | hkv
        · subst hkv; exact hv
        · exact hl kv (List.mem_cons_of_mem _ hkv)
      · simp only [aset] at hkv
        rw [if_neg h] at hkv
        rcases List.mem_cons.mp hkv with hkv | hkv
        · subst hkv; exact hl hd (List.mem_cons_self _ _)
        · exact ih (fun x hx => hl x (List.mem_cons_of_mem _ hx)) hv kv hkv

theorem nodup_akeys_fold_aset {α β γ : Type} [DecidableEq α]
    (kf : γ → α) (vf : γ → β) :
    ∀ (src : List γ) (acc : List (α × β)), (akeys acc).Nodup →
      (akeys (src.foldl (fun a x => aset a (kf x) (vf x)) acc)).Nodup := by
  intro src
  induction src with
  | nil => intro acc h; simpa using h
  | cons hd tl ih =>
      intro acc h
      simpa [List.foldl_cons] using ih _ (nodup_akeys_aset h)

theorem values_fold_aset {α β γ : Type} [DecidableEq α] (P : β → Prop)
    (kf : γ → α) (vf : γ → β) :
    ∀ (src : List γ) (acc : List (α × β)),
      (∀ kv ∈ acc, P kv.2) → (∀ x ∈ src, P (vf x)) →
      ∀ kv ∈ src.foldl (fun a x => aset a (kf x) (vf x)) acc, P kv.2 := by
  intro src
  induction src with
  | nil => intro acc hacc _ kv hkv; exact hacc kv (by simpa using hkv)
  | cons hd tl ih =>
      intro acc hacc hsrc kv hkv
      simp only [List.foldl_cons] at hkv
      exact ih _ (values_aset P hacc (hsrc hd (List.mem_cons_self _ _)))
        (fun x hx => hsrc x (List.mem_cons_of_mem _ hx)) kv hkv

theorem foldl_add_eq_sum {α : Type} (f : α → Nat) :
    ∀ (l : List α) (n : Nat), l.foldl (fun a x => a + f x) n = n + (l.map f).sum := by
  intro l
  induction l with
  | nil => simp
  | cons hd tl ih =>
      intro n
      simp [List.foldl_cons, ih, Nat.add_assoc]

theorem pySort_perm (l : List Int) : (pySort l).Perm l :=
  List.perm_insertionSort _ l

theorem pySort_nodup {l : List Int} (h : l.Nodup) : (pySort l).Nodup :=
  ((pySort_perm l).nodup_iff).mpr h

theorem pySort_length (l : List Int) : (pySort l).length = l.length :=
  (pySort_perm l).length_eq

theorem pyIntersectCard_self {l : List Int} (h : l.Nodup) :
    pyIntersectCard l l = l.length := by
  unfold pyIntersectCard
  have hf : l.dedup.filter (fun x => decide (x ∈ l)) = l.dedup := by
    apply List.filter_eq_self.mpr
    intro a ha
    exact decide_eq_true (List.mem_dedup.mp ha)
  rw [hf, List.dedup_eq_self.mpr h]

theorem commonTerm_self {nid : List (ResId × List Int)}
    (hnd : (akeys nid).Nodup) {kv : ResId × List Int} (hkv : kv ∈ nid) :
    commonTerm nid kv = pyIntersectCard kv.2 kv.2 := by
  unfold commonTerm
  rw [alookup_of_mem hnd hkv]

theorem fccCommon_self_eq_total {nid : List (ResId × List Int)}
    (hnd : (akeys nid).Nodup) (hval : ∀ kv ∈ nid, kv.2.Nodup) :
    fccCommon nid nid = fccTotal nid := by
  unfold fccCommon fccTotal
  rw [foldl_add_eq_sum, Nat.zero_add]
  congr 1
  apply List.map_congr_left
  intro kv hkv
  rw [commonTerm_self hnd hkv, pyIntersectCard_self (hval kv hkv)]

theorem nodup_akeys_neighborsId (chmap : List (Residue × List Residue)) :
    (akeys (neighborsId chmap)).Nodup := by
  unfold neighborsId
  exact nodup_akeys_fold_aset _ _ chmap [] (by simp [akeys])

theorem values_neighborsId_nodup {chmap : List (Residue × List Residue)}
    (h : ∀ kv ∈ chmap, (kv.2.map (fun r => r.id.seqnum)).Nodup) :
    ∀ kv ∈ neighborsId chmap, kv.2.Nodup := by
  unfold neighborsId
  exact values_fold_aset (fun (v : List Int) => v.Nodup) _ _ chmap [] (by simp)
    (fun x hx => pySort_nodup (h x hx))

theorem ebind_ok {ε α β : Type} (a : α) (f : α → Except ε β) :
    (Except.ok a >>= f : Except ε β) = f a := rfl

theorem ebind_error {ε α β : Type} (e : ε) (f : α → Except ε β) :
    (Except.error e >>= f : Except ε β) = Except.error e := rfl

/-- C6 (amended): for every interface whose contact map computes
successfully, whose first chain carries a nonzero reference contact total,
and in which no partner list of the first chain contains two residues sharing
a sequence number, the self-comparison `fcc(I, I)` returns exactly `1.0`. -/
theorem C6_fcc_self_is_one_amended (I : Interface) (nb : NbMap) (c0 : ChainId)
    (rest : List ChainId) (chmap : List (Residue × List Residue))
    (h1 : set_neighbors I = .ok nb)
    (h2 : I.get_chains = c0 :: rest)
    (h3 : alookup nb c0 = some chmap)
    (h4 : ∀ kv ∈ chmap, (kv.2.map (fun r => r.id.seqnum)).Nodup)
    (h5 : fccTotal (neighborsId chmap) ≠ 0) :
    fcc I I = .ok 1 := by
  have hpos : 0 < fccTotal (neighborsId chmap) := Nat.pos_of_ne_zero h5
  simp only [fcc, h1, ebind_ok, firstChain, h2, get_neighbors_id, h3]
  rw [if_neg h5]
  rw [fccCommon_self_eq_total (nodup_akeys_neighborsId chmap)
      (values_neighborsId_nodup h4)]
  rw [Nat.div_self hpos]
  norm_num

theorem foldlM_count_spec (T : PropertyTables) :
    ∀ (rs : List Residue) (acc : Nat × Nat × Nat),
      (∀ r ∈ rs, ∃ cl, classify_residue T r.resname = .ok cl) →
      ∃ p a c, rs.foldlM (count_step T) acc = .ok (p, a, c) ∧
        p + a + c = acc.1 + acc.2.1 + acc.2.2 + rs.length := by
  intro rs
  induction rs with
  | nil =>
      intro acc _
      exact ⟨acc.1, acc.2.1, acc.2.2, rfl, by simp⟩
  | cons hd tl ih =>
      intro acc hcl
      obtain ⟨cl, hcl0⟩ := hcl hd (List.mem_cons_self _ _)
      have hcons : (hd :: tl).foldlM (count_step T) acc =
          count_step T acc hd >>= fun acc2 => tl.foldlM (count_step T) acc2 := by
        rfl
      cases cl with
      | polar =>
          have hc : count_step T acc hd = .ok (acc.1 + 1, acc.2.1, acc.2.2) := by
            unfold count_step
            rw [hcl0]
            rfl
          obtain ⟨p, a, c, hfold, hsum⟩ :=
            ih (acc.1 + 1, acc.2.1, acc.2.2)
              (fun r hr => hcl r (List.mem_cons_of_mem _ hr))
          refine ⟨p, a, c, ?_, ?_⟩
          · rw [hcons, hc, ebind_ok, hfold]
          · simp at hsum ⊢
            omega
      | apolar =>
          have hc : count_step T acc hd = .ok (acc.1, acc.2.1 + 1, acc.2.2) := by
            unfold count_step
            rw [hcl0]
            rfl
          obtain ⟨p, a, c, hfold, hsum⟩ :=
            ih (acc.1, acc.2.1 + 1, acc.2.2)
              (fun r hr => hcl r (List.mem_cons_of_mem _ hr))
          refine ⟨p, a, c, ?_, ?_⟩
          · rw [hcons, hc, ebind_ok, hfold]
          · simp at hsum ⊢
            omega
      | charged =>
          have hc : count_step T acc hd = .ok (acc.1, acc.2.1, acc.2.2 + 1) := by
            unfold count_step
            rw [hcl0]
            rfl
          obtain ⟨p, a, c, hfold, hsum⟩ :=
            ih (acc.1, acc.2.1, acc.2.2 + 1)
              (fun r hr => hcl r (List.mem_cons_of_mem _ hr))
          refine ⟨p, a, c, ?_, ?_⟩
          · rw [hcons, hc, ebind_ok, hfold]
          · simp at hsum ⊢
            omega

/-- C7: for every non-empty interface residue list in which every residue
classifies successfully against the property tables, `calculate_percentage`
returns three fractions (polar, apolar, charged) that sum to exactly `1`,
each residue being counted in exactly one class. -/
theorem C7_percentage_fractions_sum_to_one (T : PropertyTables) (I : Interface)
    (hne : I.child_list ≠ [])
    (hcl : ∀ r ∈ I.child_list, ∃ cl, classify_residue T r.resname = .ok cl) :
    ∃ p a c : Rat, calculate_percentage T I = .ok [p, a, c] ∧ p + a + c = 1 := by
  obtain ⟨p, a, c, hfold, hsum⟩ := foldlM_count_spec T I.child_list (0, 0, 0) hcl
  simp only [Nat.zero_add] at hsum
  have hn : I.child_list.length ≠ 0 := by
    intro h
    exact hne (List.eq_nil_of_length_eq_zero h)
  refine ⟨(p : Rat) / I.child_list.length, (a : Rat) / I.child_list.length,
    (c : Rat) / I.child_list.length, ?_, ?_⟩
  · simp only [calculate_percentage, count_classes, hfold, ebind_ok]
    rw [if_neg hn]
  · have hcast : ((I.child_list.length : Rat)) ≠ 0 := by
      exact_mod_cast hn
    rw [div_add_div_same, div_add_div_same]
    rw [show ((p : Rat) + a + c) = ((p + a + c : Nat) : Rat) by push_cast; ring]
    rw [hsum]
    exact div_self hcast

theorem coord_step_cases (acc : List Pt × List Pt) (rp : Residue × Residue) :
    coord_step acc rp = .error .keyError ∨ ∃ a, coord_step acc rp = .ok a := by
  cases h1 : alookup rp.1.atoms "CA" with
  | none =>
      left
      simp [coord_step, h1, ofKey, ebind_error]
  | some x =>
      cases h2 : alookup rp.2.atoms "CA" with
      | none =>
          left
          simp [coord_step, h1, h2, ofKey, ebind_ok, ebind_error]
      | some y =>
          right
          refine ⟨(acc.1 ++ [x], acc.2 ++ [y]), ?_⟩
          simp [coord_step, h1, h2, ofKey, ebind_ok]

theorem foldlM_coord_ne_valueError :
    ∀ (l : List (Residue × Residue)) (acc : List Pt × List Pt),
      l.foldlM coord_step acc ≠ .error .valueError := by
  intro l
  induction l with
  | nil =>
      intro acc h
      rw [show (([] : List (Residue × Residue)).foldlM coord_step acc) = .ok acc
        from rfl] at h
      exact Except.noConfusion h
  | cons hd tl ih =>
      intro acc h
      have hcons : (hd :: tl).foldlM coord_step acc =
          coord_step acc hd >>= fun acc2 => tl.foldlM coord_step acc2 := rfl
      rw [hcons] at h
      rcases coord_step_cases acc hd with hc | ⟨a, hc⟩
      · rw [hc, ebind_error] at h
        simp at h
      · rw [hc, ebind_ok] at h
        exact ih _ h

theorem rmsd_superpose_ne_valueError
    (sup : List Pt → List Pt → Except PyError Rat)
    (hs : ∀ a b, sup a b ≠ .error .valueError) (s m : Interface) :
    rmsd_superpose sup s m ≠ .error .valueError := by
  unfold rmsd_superpose
  cases h : get_atoms_coords s m with
  | error e =>
      intro hcon
      rw [ebind_error] at hcon
      have he : e = .valueError := by
        injection hcon
      subst he
      exact foldlM_coord_ne_valueError _ _ h
  | ok coords =>
      rw [ebind_ok]
      exact hs _ _

/-- C8: when `rmsd` is called without the `mob_ref` override and both
one-letter sequences are computable, it raises the sequence-mismatch
`ValueError` exactly when the sorted one-letter code lists differ; when they
agree, or when the override is asserted, it proceeds to the superposition
stage (given that the external superposition service never itself raises
`ValueError`). -/
theorem C8_rmsd_sequence_mismatch_check (T : PropertyTables)
    (sup : List Pt → List Pt → Except PyError Rat)
    (self mobile : Interface) (refSeq altSeq : List Char)
    (hr : one_letter_seq T self.child_list = .ok refSeq)
    (ha : one_letter_seq T mobile.child_list = .ok altSeq)
    (hs : ∀ a b, sup a b ≠ .error .valueError) :
    (rmsd T sup self mobile false = .error .valueError ↔
      pySortChars refSeq ≠ pySortChars altSeq) ∧
    (pySortChars refSeq = pySortChars altSeq →
      rmsd T sup self mobile false = rmsd_superpose sup self mobile) ∧
    rmsd T sup self mobile true = rmsd_superpose sup self mobile := by
  have hunf : rmsd T sup self mobile false =
      (if pySortChars refSeq ≠ pySortChars altSeq then .error .valueError
       else rmsd_superpose sup self mobile) := by
    simp only [rmsd, if_true]
    rw [hr, ebind_ok, ha, ebind_ok]
  have htrue : rmsd T sup self mobile true = rmsd_superpose sup self mobile := by
    simp only [rmsd]
    rw [if_neg (by decide : ¬ (true = false))]
  by_cases he : pySortChars refSeq = pySortChars altSeq
  · have hnn : ¬ (pySortChars refSeq ≠ pySortChars altSeq) := fun hc => hc he
    rw [hunf, if_neg hnn]
    refine ⟨?_, fun _ => rfl, htrue⟩
    constructor
    · intro h
      exact absurd h (rmsd_superpose_ne_valueError sup hs self mobile)
    · intro h
      exact absurd he h
  · rw [hunf, if_pos he]
    exact ⟨⟨fun _ => he, fun _ => rfl⟩, fun hc => absurd hc he, htrue⟩

/-- C3 (amended): whenever the reference interface reaches the division of
`fcc` with a zero contact total on the selected chain, `fcc` raises the
generic `ZeroDivisionError` of the unguarded division at line 224; no
distinct EmptyContactSet failure exists anywhere in the code. -/
theorem C3_fcc_zero_total_zero_division_amended (self mobile : Interface) (nbS nbM : NbMap)
    (c : ChainId) (nidS nidM : List (ResId × List Int))
    (h1 : set_neighbors self = .ok nbS)
    (h2 : set_neighbors mobile = .ok nbM)
    (h3 : firstChain self = .ok c)
    (h4 : get_neighbors_id nbS c = .ok nidS)
    (h5 : get_neighbors_id nbM c = .ok nidM)
    (h6 : fccTotal nidS = 0) :
    fcc self mobile = .error .zeroDivisionError := by
  simp only [fcc, h1, h2, h3, h4, h5, ebind_ok]
  rw [if_pos h6]

/-- C4 (amended): `calculate_BSA` performs no chain-count validation.
Whenever the interface exposes at least two chains, it silently selects the
first two chains in iteration order for the isolated-chain structures,
ignoring any further chains; with fewer than two chains it fails with a
generic `IndexError`, not an unsupported-configuration error. -/
theorem C4_bsa_selects_first_two_chains_amended (I : Interface) :
    (∀ c0 c1 rest, I.get_chains = c0 :: c1 :: rest →
      bsa_selected_chains I = .ok (c0, c1)) ∧
    (I.get_chains.length < 2 → bsa_selected_chains I = .error .indexError) := by
  constructor
  · intro c0 c1 rest h
    simp [bsa_selected_chains, pyIndex, h, ebind_ok]
  · intro h
    match hc : I.get_chains with
    | [] => simp [bsa_selected_chains, pyIndex, hc, ebind_error]
    | [c] => simp [bsa_selected_chains, pyIndex, hc, ebind_ok, ebind_error]
    | c0 :: c1 :: rest =>
        rw [hc] at h
        simp at h
        omega

theorem bsa_selected_cases (I : Interface) :
    bsa_selected_chains I = .error .indexError ∨
    ∃ p, bsa_selected_chains I = .ok p := by
  cases h0 : I.get_chains[0]? with
  | none =>
      left
      simp [bsa_selected_chains, pyIndex, h0, ebind_error]
  | some c0 =>
      cases h1 : I.get_chains[1]? with
      | none =>
          left
          simp [bsa_selected_chains, pyIndex, h0, h1, ebind_ok, ebind_error]
      | some c1 =>
          right
          refine ⟨(c0, c1), ?_⟩
          simp [bsa_selected_chains, pyIndex, h0, h1, ebind_ok]

/-- C5: `calculate_BSA` never returns the promised 4-tuple
`[BSA, SASA(A), SASA(B), SASA(complex)]`: on every input it raises an
exception, in the successful-selection case the `NameError` produced by
resolving the bare class-attribute name `_get_atomic_SASA` at line 142 (and
`_get_atomic_SASA` itself would fail on the undefined `sas_l` at line 118). -/
theorem C5_calculate_BSA_always_raises (I : Interface) :
    calculate_BSA I = .error .nameError ∨ calculate_BSA I = .error .keyError ∨
    calculate_BSA I = .error .indexError := by
  rcases bsa_selected_cases I with h | ⟨p, h⟩
  · right; right
    unfold calculate_BSA
    rw [h, ebind_error]
  · unfold calculate_BSA
    rw [h, ebind_ok]
    by_cases h1 : p.1 ∈ I.model_chains
    · by_cases h2 : p.2 ∈ I.model_chains
      · left
        rw [if_pos h1, if_pos h2]
      · right; left
        rw [if_pos h1, if_neg h2]
    · right; left
      rw [if_neg h1]

theorem add_skip_of_has_id (J : Interface) (e : Residue)
    (h : J.has_id e.id = true) : J.add e = J := by
  unfold Interface.add
  rw [if_pos h]

/-- C1: evaluation of `set_neighbors` at the single raw pair `(A10, B20)`.
The cached contact map is not symmetric: B20 appears in the partner list of
A10 under chain key A, but A10 does not appear in the partner list of B20
under chain key B (line 77 appends `resB` to its own partner list instead of
`resA`). -/
theorem C1_contact_map_asymmetric_at_single_pair :
    (set_neighbors I1).map (fun nb =>
      (inPartnerList nb "A" rA10 rB20, inPartnerList nb "B" rB20 rA10)) =
    .ok (true, false) := by
  decide

/-- C2: on the reference example (raw pairs `[(A10,B20), (A10,B21),
(A11,B20)]` against a mobile with raw pair `[(A10,B20)]` only) `fcc` returns
`0.0`, not `1/3`: line 224 computes `float(common/total)` where
`common/total` is Python 2 integer floor division. -/
theorem C2_fcc_truncates_to_zero_on_example :
    fcc refEx mobEx = .ok 0 ∧ fcc refEx mobEx ≠ .ok (1 / 3 : Rat) := by
  have h : fcc refEx mobEx = .ok 0 := by decide
  refine ⟨h, ?_⟩
  rw [h]
  intro hc
  have h0 : (0 : Rat) = 1 / 3 := by injection hc
  norm_num at h0

/-- C9: `set_neighbors` is not invariant under permutation of the raw pair
list.  With pairs `[(A10,B20), (A11,B20)]` residue A11 is in the partner set
of B20, but with the reversed pair list it is A10 instead, so the partner
sets themselves differ between the two orders. -/
theorem C9_set_neighbors_order_dependent :
    I9b.uniq_pairs = I9a.uniq_pairs.reverse ∧
    (set_neighbors I9a).map (fun nb => inPartnerList nb "B" rB20 rA11) = .ok true ∧
    (set_neighbors I9b).map (fun nb => inPartnerList nb "B" rB20 rA11) = .ok false := by
  refine ⟨by decide, by decide, by decide⟩

/-- C10: `Interface.add` is idempotent: adding an entity whose id is already
present leaves the Interface unchanged, and adding the same residue twice
equals adding it once. -/
theorem C10_add_idempotent (I : Interface) (e : Residue) :
    (I.has_id e.id = true → I.add e = I) ∧ (I.add e).add e = I.add e := by
  refine ⟨add_skip_of_has_id I e, ?_⟩
  apply add_skip_of_has_id
  by_cases h : I.has_id e.id = true
  · rw [add_skip_of_has_id I e h]
    exact h
  · unfold Interface.add
    rw [if_neg h]
    unfold Interface.has_id
    simp

/-- Witness for C10 at a concrete interface: `mobEx` already contains A10,
so adding it again changes nothing. -/
theorem C10_add_idempotent_witness : mobEx.add rA10 = mobEx :=
  (C10_add_idempotent mobEx rA10).1 (by decide)

/-- Counterexample for C3: with an empty reference contact list, `fcc`
raises the generic `ZeroDivisionError`, not a distinct EmptyContactSet
failure. -/
theorem C3_counterexample_generic_zero_division :
    fcc refEmpty mobEx = .error .zeroDivisionError := by
  decide

/-- Witness for the amended C3 theorem at the concrete empty-contact
interface. -/
theorem C3_fcc_zero_total_zero_division_amended_witness :
    fcc refEmpty refEmpty = .error .zeroDivisionError :=
  C3_fcc_zero_total_zero_division_amended refEmpty refEmpty
    [("A", []), ("B", [])] [("A", []), ("B", [])] "A" [] []
    (by decide) (by decide) (by decide) (by decide) (by decide) (by decide)

/-- Counterexample for C4: a three-chain interface is not rejected; the
chain selection of `calculate_BSA` silently picks the first two chains, and
the eventual failure is the unrelated `NameError`, not an
unsupported-configuration error. -/
theorem C4_counterexample_three_chains_truncated :
    I3chains.get_chains.length = 3 ∧
    bsa_selected_chains I3chains = .ok ("A", "B") ∧
    calculate_BSA I3chains = .error .nameError := by
  refine ⟨by decide, by decide, by decide⟩

/-- Witness for the amended C4 theorem at a concrete two-chain interface. -/
theorem C4_bsa_selects_first_two_chains_amended_witness :
    bsa_selected_chains I2chains = .ok ("A", "B") :=
  (C4_bsa_selects_first_two_chains_amended I2chains).1 "A" "B" [] (by decide)

/-- Counterexample for C6: an interface with one contact pair per insertion
code at the same sequence number (B20 and B20A) has `fcc(I, I) = 0.0`, not
`1.0`, although it has two contacts. -/
theorem C6_counterexample_shared_seqnums :
    I6.uniq_pairs.length = 2 ∧ fcc I6 I6 = .ok 0 ∧ fcc I6 I6 ≠ .ok 1 := by
  refine ⟨by decide, by decide, by decide⟩

/-- The contact map computed for `refEx`, written out. -/
def nbRefEx : NbMap :=
  [("A", [(rA10, [rB20, rB21]), (rA11, [rB20])]),
   ("B", [(rB20, [rB20, rA11]), (rB21, [rB21])])]

/-- The chain-A entry of `nbRefEx`. -/
def chmapRefEx : List (Residue × List Residue) :=
  [(rA10, [rB20, rB21]), (rA11, [rB20])]

/-- Witness for the amended C6 theorem: the reference example compared with
itself yields exactly `1.0`. -/
theorem C6_fcc_self_is_one_amended_witness : fcc refEx refEx = .ok 1 :=
  C6_fcc_self_is_one_amended refEx nbRefEx "A" ["B"] chmapRefEx
    (by decide) (by decide) (by decide) (by decide) (by decide)

/-- A property table mapping every residue name to the one-letter code A,
with an empty polar class and zero side-chain pKa. -/
def TW : PropertyTables :=
  { to_one_letter_code := fun _ => some 'A'
    protein_polarity_polar := []
    protein_pka_side_chain := fun _ => some 0 }

/-- Witness for C7 at the concrete interface `mobEx` under `TW`. -/
theorem C7_percentage_fractions_sum_to_one_witness :
    ∃ p a c : Rat, calculate_percentage TW mobEx = .ok [p, a, c] ∧ p + a + c = 1 :=
  C7_percentage_fractions_sum_to_one TW mobEx (by decide)
    (fun r _ => ⟨.apolar, rfl⟩)

/-- A trivially succeeding external superposition service. -/
def supW : List Pt → List Pt → Except PyError Rat := fun _ _ => .ok 0

/-- Witness for C8 at concrete interfaces and a concrete superposition
service: equal sequences do not raise, and the result is the superposition
stage in both the checked and the overridden call. -/
theorem C8_rmsd_sequence_mismatch_check_witness :
    (rmsd TW supW mobEx mobEx false = .error .valueError ↔
      pySortChars ['A', 'A'] ≠ pySortChars ['A', 'A']) ∧
    (pySortChars ['A', 'A'] = pySortChars ['A', 'A'] →
      rmsd TW supW mobEx mobEx false = rmsd_superpose supW mobEx mobEx) ∧
    rmsd TW supW mobEx mobEx true = rmsd_superpose supW mobEx mobEx :=
  C8_rmsd_sequence_mismatch_check TW supW mobEx mobEx ['A', 'A'] ['A', 'A']
    rfl rfl (fun _ _ h => Except.noConfusion h)
